import Mathlib

/-!
Shallow embedding of the Magnum excerpt: the Physics collision-shape
subsystem (`src/Physics/Capsule.cpp`), the debug-draw transformation of
`src/DebugTools/Implementation/AxisAlignedBoxRenderer.cpp`, and the
Vulkan handle-ownership wrappers of `src/Magnum/Vk/CommandPool.h` and
`src/Magnum/Vk/Image.h`.

`Float` arithmetic of the source is modelled exactly: the collision
predicates and the debug-draw transformation (which use no square roots)
over `ℚ`, the capsule transformation's scaling factor (which takes a
vector length) over `ℝ`.
-/

namespace Magnum

/-- `n`-dimensional vector over `ℚ` (Magnum `Math::Vector<n, Float>`). -/
abbrev Vec (n : ℕ) := Fin n → ℚ

/-- Dot product of two vectors (`Math::Vector::dot(a, b)`). -/
def dot {n : ℕ} (u v : Vec n) : ℚ := ∑ i, u i * v i

/-- Squared euclidean length (`Math::Vector::dot()`). -/
def normSq {n : ℕ} (u : Vec n) : ℚ := dot u u

/-- Modelled from the spec: `Math::Geometry::Distance::lineSegmentPointSquared`
(its source, `Math/Geometry/Distance.h`, is not part of the excerpt). Per the
spec it is an exact distance formula: the squared distance from `p` to the
line segment from `a` to `b`, computed by projecting `p` onto the supporting
line and clamping the projection parameter to `[0, 1]`. The lemma
`lineSegmentPointSquared_isLeast` below proves the result is the least
squared distance from `p` to any point of the segment. -/
def lineSegmentPointSquared {n : ℕ} (a b p : Vec n) : ℚ :=
  normSq (p - (a + (max 0 (min 1 (dot (p - a) (b - a) / dot (b - a) (b - a)))) • (b - a)))

/-- Local and transformed state of `Physics::Capsule<n>`, parametrised by the
scalar type (`ℚ` for the exactly-modelled collision predicates, `ℝ` where the
transformation's vector length is needed). -/
structure Capsule (K : Type) (n : ℕ) where
  a : Fin n → K
  b : Fin n → K
  radius : K
  transformedA : Fin n → K
  transformedB : Fin n → K
  transformedRadius : K

/-- Local and transformed state of `Physics::Point<n>`. -/
structure Point (K : Type) (n : ℕ) where
  position : Fin n → K
  transformedPosition : Fin n → K

/-- Local and transformed state of `Physics::Sphere<n>`. -/
structure Sphere (K : Type) (n : ℕ) where
  position : Fin n → K
  transformedPosition : Fin n → K
  radius : K
  transformedRadius : K

/-- `Capsule<n>::operator%(const Point<n>&)` from `src/Physics/Capsule.cpp`:
`Distance::lineSegmentPointSquared(transformedA(), transformedB(),
other.transformedPosition()) < Math::pow<2>(transformedRadius())`. -/
def Capsule.modPoint {n : ℕ} (c : Capsule ℚ n) (p : Point ℚ n) : Bool :=
  lineSegmentPointSquared c.transformedA c.transformedB p.transformedPosition <
    c.transformedRadius ^ 2

/-- `Capsule<n>::operator%(const Sphere<n>&)` from `src/Physics/Capsule.cpp`:
`Distance::lineSegmentPointSquared(transformedA(), transformedB(),
other.transformedPosition()) < Math::pow<2>(transformedRadius() +
other.transformedRadius())`. -/
def Capsule.modSphere {n : ℕ} (c : Capsule ℚ n) (s : Sphere ℚ n) : Bool :=
  lineSegmentPointSquared c.transformedA c.transformedB s.transformedPosition <
    (c.transformedRadius + s.transformedRadius) ^ 2

/-- Modelled from the spec: `Sphere<n>::operator%(const Capsule<n>&)` (its
source, `Sphere.cpp`, is not part of the excerpt). Per the spec the
capsule/sphere type pair is handled symmetrically: the test compares the
squared distance from the sphere's transformed position to the capsule's
transformed segment against the squared sum of the transformed radii. -/
def Sphere.modCapsule {n : ℕ} (s : Sphere ℚ n) (c : Capsule ℚ n) : Bool :=
  lineSegmentPointSquared c.transformedA c.transformedB s.transformedPosition <
    (s.transformedRadius + c.transformedRadius) ^ 2

/-- Runtime type tags of `AbstractShape<n>::Type`; the excerpt names `Point`,
`Sphere` and `Capsule`, further kinds are modelled by an index. -/
inductive ShapeType where
  | point
  | sphere
  | capsule
  | other (k : ℕ)
deriving DecidableEq

/-- A shape seen through the `AbstractShape<n>` interface: its runtime type
tag together with the payload the corresponding `static_cast` recovers. -/
inductive AbstractShape (n : ℕ) where
  | point (p : Point ℚ n)
  | sphere (s : Sphere ℚ n)
  | capsule (c : Capsule ℚ n)
  | other (k : ℕ)

/-- `AbstractShape<n>::type()`. -/
def AbstractShape.type {n : ℕ} : AbstractShape n → ShapeType
  | .point _ => .point
  | .sphere _ => .sphere
  | .capsule _ => .capsule
  | .other k => .other k

/-- `static_cast<const Point<n>*>(other)`: only evaluated under the
`other->type() == Type::Point` guard, so the fallback value is never used. -/
def AbstractShape.asPoint {n : ℕ} : AbstractShape n → Point ℚ n
  | .point p => p
  | _ => ⟨0, 0⟩

/-- `static_cast<const Sphere<n>*>(other)`: only evaluated under the
`other->type() == Type::Sphere` guard, so the fallback value is never used. -/
def AbstractShape.asSphere {n : ℕ} : AbstractShape n → Sphere ℚ n
  | .sphere s => s
  | _ => ⟨0, 0, 0, 0⟩

/-- `Capsule<n>::collides(const AbstractShape<n>*)` from
`src/Physics/Capsule.cpp`: two type-tag checks followed by a fall-through to
`AbstractShape<n>::collides`. The base implementation is not part of the
excerpt, so it is kept abstract as the parameter `base`. -/
def Capsule.collides {n : ℕ} (base : AbstractShape n → Bool) (c : Capsule ℚ n)
    (o : AbstractShape n) : Bool :=
  if o.type = ShapeType.point then c.modPoint o.asPoint
  else if o.type = ShapeType.sphere then c.modSphere o.asSphere
  else base o

/-- The model transformation built by `AxisAlignedBoxRenderer<n>::draw` in
`src/DebugTools/Implementation/AxisAlignedBoxRenderer.cpp`:
`MatrixType::translation((transformedMin+transformedMax)/2) *
MatrixType::scaling((transformedMax-transformedMin)/2)`. Magnum's
`translation` is the affine translation and `scaling` the diagonal scaling,
so the composite sends `x` to `center + halfExtent ⊙ x` componentwise. -/
def aabbDrawTransformation {n : ℕ} (tMin tMax : Vec n) (x : Vec n) : Vec n :=
  fun i => (tMin i + tMax i) / 2 + (tMax i - tMin i) / 2 * x i

/-- The canonical 2x2(x2) box the renderer's mesh spans: corner coordinates
`-1` and `+1` in every axis. -/
def canonicalBox (n : ℕ) : Set (Vec n) := {x | ∀ i, -1 ≤ x i ∧ x i ≤ 1}

/-- The axis-aligned box spanning `tMin` to `tMax`. -/
def boxSpanning {n : ℕ} (tMin tMax : Vec n) : Set (Vec n) :=
  {y | ∀ i, tMin i ≤ y i ∧ y i ≤ tMax i}

/-- An affine transformation as `Capsule<n>::applyTransformationMatrix`
consumes it: `rotationScaling()` is the upper-left `n`x`n` linear part of the
homogeneous matrix, `translation` its last column. -/
structure TransformationMatrix (n : ℕ) where
  rotationScaling : Fin n → Fin n → ℝ
  translation : Fin n → ℝ

/-- `MatrixType::transformPoint(p)`: the affine action, linear part applied to
`p` plus the translation. -/
noncomputable def TransformationMatrix.transformPoint {n : ℕ}
    (m : TransformationMatrix n) (p : Fin n → ℝ) : Fin n → ℝ :=
  fun i => (∑ j, m.rotationScaling i j * p j) + m.translation i

/-- `Math::Vector::length()`: square root of the sum of squared components. -/
noncomputable def vecLength {n : ℕ} (v : Fin n → ℝ) : ℝ :=
  Real.sqrt (∑ i, v i ^ 2)

/-- `Capsule<n>::applyTransformationMatrix` from `src/Physics/Capsule.cpp`:
`_transformedA = matrix.transformPoint(_a); _transformedB =
matrix.transformPoint(_b); Float scaling =
(matrix.rotationScaling()*VectorType(1/Constants::sqrt3())).length();
_transformedRadius = scaling*_radius;`. The same `1/sqrt(3)`-filled vector is
used for every dimension `n`. -/
noncomputable def Capsule.applyTransformationMatrix {n : ℕ} (c : Capsule ℝ n)
    (m : TransformationMatrix n) : Capsule ℝ n :=
  { c with
    transformedA := m.transformPoint c.a
    transformedB := m.transformPoint c.b
    transformedRadius :=
      vecLength (fun i => ∑ j, m.rotationScaling i j * (1 / Real.sqrt 3)) * c.radius }

/-- The identity transformation matrix. -/
def identityMatrix (n : ℕ) : TransformationMatrix n :=
  ⟨fun i j => if i = j then 1 else 0, fun _ => 0⟩

/-- A concrete 2D capsule with radius 1 (endpoints `(0,0)` and `(1,0)`). -/
noncomputable def unitCapsule2 : Capsule ℝ 2 :=
  ⟨![0, 0], ![1, 0], 1, ![0, 0], ![1, 0], 1⟩

/-- A concrete 3D capsule with radius 1 (endpoints `(0,0,0)` and `(1,0,0)`). -/
noncomputable def unitCapsule3 : Capsule ℝ 3 :=
  ⟨![0, 0, 0], ![1, 0, 0], 1, ![0, 0, 0], ![1, 0, 0], 1⟩

namespace Vk

/-- `HandleFlags` of a Vulkan wrapper object (`src/Magnum/Vk/CommandPool.h`,
`src/Magnum/Vk/Image.h`); the only flag appearing in the excerpt is
`HandleFlag::DestroyOnDestruction`, so the flag set is one Boolean. -/
structure HandleFlags where
  destroyOnDestruction : Bool
deriving DecidableEq

/-- Modelled from the spec: the state of a Vulkan wrapper object
(`CommandPool`, `Image`): the native handle (`0` models `VK_NULL_HANDLE`) and
the handle flags. The member function bodies (`CommandPool.cpp`, `Image.cpp`)
are not part of the excerpt; they are modelled from the headers' documented
behaviour and the tests (`CommandPoolVkTest.cpp`, `ImageVkTest.cpp`). -/
structure VkObject where
  handle : ℕ
  flags : HandleFlags
deriving DecidableEq

/-- Modelled from the spec: the `NoCreate` constructor, which the headers
document as producing a state equivalent to moved-from (null handle, empty
flags; the move-construction test observes exactly this on the moved-from
object). -/
def noCreate : VkObject := ⟨0, ⟨false⟩⟩

/-- Modelled from the spec: `wrap(device, handle, flags)` adopts an existing
handle with the caller's flags (default empty, so the handle is not deleted
on destruction). -/
def wrap (handle : ℕ) (flags : HandleFlags) : VkObject := ⟨handle, flags⟩

/-- Modelled from the spec: the creating constructor asks the driver for a
fresh handle and owns it, i.e. its flags contain `DestroyOnDestruction` (the
construct tests observe `handleFlags() == HandleFlag::DestroyOnDestruction`). -/
def create (freshHandle : ℕ) : VkObject := ⟨freshHandle, ⟨true⟩⟩

/-- Modelled from the spec: `release()` returns the handle and leaves the
object in a state equivalent to moved-from, so the native object is not
destroyed on destruction. -/
def release (o : VkObject) : ℕ × VkObject := (o.handle, noCreate)

/-- Modelled from the spec: whether the destructor destroys the associated
native handle: it does unless there is no handle (moved-from or `NoCreate`
state) or the flags lack `DestroyOnDestruction` (as after `wrap()` with
default flags). -/
def destructorDestroysHandle (o : VkObject) : Bool :=
  o.handle != 0 && o.flags.destroyOnDestruction

/-- `VkImageType` values used by the convenience constructors in
`src/Magnum/Vk/Image.h`. -/
inductive VkImageType where
  | e1D
  | e2D
  | e3D
deriving DecidableEq

/-- `ImageCreateInfo::Flag` from `src/Magnum/Vk/Image.h` (the excerpt defines
`MutableFormat` and `CubeCompatible`). -/
inductive ImageFlag where
  | mutableFormat
  | cubeCompatible
deriving DecidableEq

/-- Modelled from the spec: the base `ImageCreateInfo` constructor (its body
lives in `Image.cpp`, not part of the excerpt). Its documentation in
`src/Magnum/Vk/Image.h` states it pre-fills the `VkImageCreateInfo` fields
from its arguments verbatim and zero-fills the rest, so it is modelled as a
record of its arguments. `usages` and `format` are opaque payloads. -/
structure ImageCreateInfoData where
  imageType : VkImageType
  usages : ℕ
  format : ℕ
  extent : Fin 3 → ℤ
  layers : ℤ
  levels : ℤ
  samples : ℤ
  flags : Finset ImageFlag
deriving DecidableEq

/-- The base `ImageCreateInfo` constructor call, recording its arguments. -/
def imageCreateInfo (type : VkImageType) (usages format : ℕ) (size : Fin 3 → ℤ)
    (layers levels samples : ℤ) (flags : Finset ImageFlag) : ImageCreateInfoData :=
  ⟨type, usages, format, size, layers, levels, samples, flags⟩

/-- `ImageCreateInfoCubeMap` from `src/Magnum/Vk/Image.h`: delegates to
`ImageCreateInfo{VK_IMAGE_TYPE_2D, usages, format, {size, 1}, 6, levels,
samples, flags|Flag::CubeCompatible}`. -/
def imageCreateInfoCubeMap (usages format : ℕ) (size : Fin 2 → ℤ)
    (levels samples : ℤ) (flags : Finset ImageFlag) : ImageCreateInfoData :=
  imageCreateInfo VkImageType.e2D usages format ![size 0, size 1, 1] 6 levels
    samples (flags ∪ {ImageFlag.cubeCompatible})

/-- `ImageCreateInfoCubeMapArray` from `src/Magnum/Vk/Image.h`: delegates to
`ImageCreateInfo{VK_IMAGE_TYPE_2D, usages, format, {size.xy(), 1}, size.z(),
levels, samples, flags|Flag::CubeCompatible}`. -/
def imageCreateInfoCubeMapArray (usages format : ℕ) (size : Fin 3 → ℤ)
    (levels samples : ℤ) (flags : Finset ImageFlag) : ImageCreateInfoData :=
  imageCreateInfo VkImageType.e2D usages format ![size 0, size 1, 1] (size 2)
    levels samples (flags ∪ {ImageFlag.cubeCompatible})

end Vk

/- ------------------------------------------------------------------ -/
/- Helper lemmas                                                      -/
/- ------------------------------------------------------------------ -/

lemma normSq_nonneg {n : ℕ} (u : Vec n) : 0 ≤ normSq u :=
  Finset.sum_nonneg fun i _ => mul_self_nonneg (u i)

lemma normSq_sub_smul {n : ℕ} (w d : Vec n) (t : ℚ) :
    normSq (w - t • d) = normSq w - 2 * t * dot w d + t ^ 2 * normSq d := by
  simp only [normSq, dot, Pi.sub_apply, Pi.smul_apply, smul_eq_mul, Finset.mul_sum]
  rw [← Finset.sum_sub_distrib, ← Finset.sum_add_distrib]
  exact Finset.sum_congr rfl fun i _ => by ring

lemma dot_sq_le {n : ℕ} (w d : Vec n) : dot w d ^ 2 ≤ normSq w * normSq d := by
  have h := Finset.sum_mul_sq_le_sq_mul_sq Finset.univ w d
  simpa [normSq, dot, sq] using h

/-- `lineSegmentPointSquared a b p` is the least squared distance from `p` to
a point of the segment `{a + t • (b - a) | t ∈ [0, 1]}`: it is attained on
the segment and bounds every squared distance to the segment from below. -/
lemma lineSegmentPointSquared_isLeast {n : ℕ} (a b p : Vec n) :
    IsLeast {q : ℚ | ∃ t : ℚ, 0 ≤ t ∧ t ≤ 1 ∧
        q = normSq (p - (a + t • (b - a)))}
      (lineSegmentPointSquared a b p) := by
  have hsub : ∀ t : ℚ, p - (a + t • (b - a)) = (p - a) - t • (b - a) := fun t =>
    sub_add_eq_sub_sub p a (t • (b - a))
  set w : Vec n := p - a with hw
  set d : Vec n := b - a with hd
  set B : ℚ := dot w d with hB
  set C : ℚ := normSq d with hC
  have hCnn : 0 ≤ C := normSq_nonneg d
  set tc : ℚ := max 0 (min 1 (B / C)) with htc
  have hQ : ∀ t : ℚ, normSq (p - (a + t • d)) = normSq w - 2 * t * B + t ^ 2 * C := by
    intro t
    rw [hsub t, normSq_sub_smul]
  have htc0 : 0 ≤ tc := le_max_left _ _
  have htc1 : tc ≤ 1 := max_le (by norm_num) (min_le_left _ _)
  have hval : lineSegmentPointSquared a b p = normSq (p - (a + tc • d)) := rfl
  constructor
  · exact ⟨tc, htc0, htc1, hval⟩
  · rintro q ⟨t, ht0, ht1, rfl⟩
    rw [hval, hQ, hQ]
    rcases eq_or_lt_of_le hCnn with hC0 | hCpos
    · have h := dot_sq_le w d
      have hB2 : B ^ 2 ≤ 0 := by nlinarith [normSq_nonneg w]
      have hB0 : B = 0 := by
        have h0 : B ^ 2 = 0 := le_antisymm hB2 (sq_nonneg B)
        exact (pow_eq_zero_iff two_ne_zero).mp h0
      rw [hB0, ← hC0]
      ring_nf
      exact le_rfl
    · have key : ∀ s : ℚ, normSq w - 2 * s * B + s ^ 2 * C
          = (normSq w - B ^ 2 / C) + C * (s - B / C) ^ 2 := by
        intro s
        field_simp
        ring
      rw [key, key]
      have hsq : (tc - B / C) ^ 2 ≤ (t - B / C) ^ 2 := by
        rcases le_or_lt (B / C) 0 with h1 | h1
        · have htcz : tc = 0 := by
            rw [htc, min_eq_right (le_trans h1 zero_le_one)]
            exact max_eq_left h1
          rw [htcz]
          nlinarith
        · rcases le_or_lt 1 (B / C) with h2 | h2
          · have htco : tc = 1 := by
              rw [htc, min_eq_left h2]
              norm_num
            rw [htco]
            nlinarith
          · have htcm : tc = B / C := by
              rw [htc, min_eq_right (le_of_lt h2)]
              exact max_eq_right (le_of_lt h1)
            rw [htcm]
            nlinarith [sq_nonneg (t - B / C)]
      nlinarith [mul_le_mul_of_nonneg_left hsq hCnn]

/- ------------------------------------------------------------------ -/
/- Claim theorems                                                     -/
/- ------------------------------------------------------------------ -/

/-- Claim C1: the claim states that `applyTransformationMatrix` scales the
capsule radius by the matrix's uniform scaling factor, so the identity matrix
leaves the transformed radius equal to the local radius in both dimension 2
and dimension 3. The endpoints do transform as claimed and the 3D radius is
preserved by the identity, but in dimension 2 the code still normalises the
probe vector with `1/sqrt(3)`, so the identity matrix multiplies the radius
by `sqrt(2/3) ≠ 1`: the code contradicts the claimed (and clearly intended)
behaviour. -/
theorem capsule_identity_transform_radius_2d_bug :
    (unitCapsule2.applyTransformationMatrix (identityMatrix 2)).transformedA
        = unitCapsule2.a
    ∧ (unitCapsule2.applyTransformationMatrix (identityMatrix 2)).transformedB
        = unitCapsule2.b
    ∧ (unitCapsule3.applyTransformationMatrix (identityMatrix 3)).transformedRadius
        = unitCapsule3.radius
    ∧ (unitCapsule2.applyTransformationMatrix (identityMatrix 2)).transformedRadius
        = Real.sqrt (2 / 3)
    ∧ Real.sqrt (2 / 3) ≠ unitCapsule2.radius := by
  have h3 : ((1 : ℝ) / Real.sqrt 3) ^ 2 = 1 / 3 := by
    rw [div_pow, one_pow, Real.sq_sqrt (by norm_num : (0:ℝ) ≤ 3)]
  have harg2 : ∀ i : Fin 2,
      (∑ j, (identityMatrix 2).rotationScaling i j * (1 / Real.sqrt 3))
        = 1 / Real.sqrt 3 := by
    intro i
    fin_cases i <;> simp [identityMatrix, Fin.sum_univ_two]
  have harg3 : ∀ i : Fin 3,
      (∑ j, (identityMatrix 3).rotationScaling i j * (1 / Real.sqrt 3))
        = 1 / Real.sqrt 3 := by
    intro i
    fin_cases i <;> simp [identityMatrix, Fin.sum_univ_three]
  refine ⟨?_, ?_, ?_, ?_, ?_⟩
  · funext i
    fin_cases i <;>
      simp [Capsule.applyTransformationMatrix, TransformationMatrix.transformPoint,
        identityMatrix, unitCapsule2, Fin.sum_univ_two]
  · funext i
    fin_cases i <;>
      simp [Capsule.applyTransformationMatrix, TransformationMatrix.transformPoint,
        identityMatrix, unitCapsule2, Fin.sum_univ_two]
  · show vecLength (fun i : Fin 3 =>
        ∑ j, (identityMatrix 3).rotationScaling i j * (1 / Real.sqrt 3))
          * unitCapsule3.radius = unitCapsule3.radius
    have hr : unitCapsule3.radius = 1 := rfl
    rw [hr, mul_one]
    unfold vecLength
    rw [Fin.sum_univ_three]
    simp only [harg3, h3]
    norm_num [Real.sqrt_one]
  · show vecLength (fun i : Fin 2 =>
        ∑ j, (identityMatrix 2).rotationScaling i j * (1 / Real.sqrt 3))
          * unitCapsule2.radius = Real.sqrt (2 / 3)
    have hr : unitCapsule2.radius = 1 := rfl
    rw [hr, mul_one]
    unfold vecLength
    rw [Fin.sum_univ_two]
    simp only [harg2, h3]
    norm_num
  · have hr : unitCapsule2.radius = 1 := rfl
    rw [hr, Ne, Real.sqrt_eq_one]
    norm_num

/-- Claim C2: `Capsule<n>::operator%(const Sphere<n>&)` returns true iff the
squared distance from the sphere's transformed position to the segment
between the capsule's transformed endpoints is strictly less than the square
of the sum of the transformed radii. The second conjunct certifies that
`lineSegmentPointSquared` really is the squared distance to the segment: it
is the least squared distance to a point of the segment. -/
theorem capsule_mod_sphere_iff_segment_distance {n : ℕ} (c : Capsule ℚ n)
    (s : Sphere ℚ n) :
    (c.modSphere s = true ↔
      lineSegmentPointSquared c.transformedA c.transformedB
          s.transformedPosition <
        (c.transformedRadius + s.transformedRadius) ^ 2)
    ∧ IsLeast {q : ℚ | ∃ t : ℚ, 0 ≤ t ∧ t ≤ 1 ∧
        q = normSq (s.transformedPosition -
          (c.transformedA + t • (c.transformedB - c.transformedA)))}
      (lineSegmentPointSquared c.transformedA c.transformedB
        s.transformedPosition) :=
  ⟨by simp [Capsule.modSphere], lineSegmentPointSquared_isLeast _ _ _⟩

/-- Claim C3: `Capsule<n>::operator%(const Point<n>&)` returns true iff the
squared distance from the point's transformed position to the segment
between the capsule's transformed endpoints is strictly less than the square
of the capsule's transformed radius. The second conjunct certifies that
`lineSegmentPointSquared` really is the squared distance to the segment. -/
theorem capsule_mod_point_iff_segment_distance {n : ℕ} (c : Capsule ℚ n)
    (p : Point ℚ n) :
    (c.modPoint p = true ↔
      lineSegmentPointSquared c.transformedA c.transformedB
          p.transformedPosition <
        c.transformedRadius ^ 2)
    ∧ IsLeast {q : ℚ | ∃ t : ℚ, 0 ≤ t ∧ t ≤ 1 ∧
        q = normSq (p.transformedPosition -
          (c.transformedA + t • (c.transformedB - c.transformedA)))}
      (lineSegmentPointSquared c.transformedA c.transformedB
        p.transformedPosition) :=
  ⟨by simp [Capsule.modPoint], lineSegmentPointSquared_isLeast _ _ _⟩

/-- Claim C4: the capsule/sphere pair is handled symmetrically: `c % s`
returns true iff `s % c` returns true. -/
theorem capsule_sphere_mod_symm {n : ℕ} (c : Capsule ℚ n) (s : Sphere ℚ n) :
    (c.modSphere s = true) ↔ (s.modCapsule c = true) := by
  simp [Capsule.modSphere, Sphere.modCapsule, add_comm]

/-- Claim C5: `Capsule<n>::collides` dispatches on the runtime type of the
other shape: a `Point` goes to `operator%(Point)` on the downcast payload, a
`Sphere` to `operator%(Sphere)` on the downcast payload, and every other
type falls through to the base `AbstractShape<n>::collides` (kept abstract
as `base`). -/
theorem capsule_collides_dispatch {n : ℕ} (base : AbstractShape n → Bool)
    (c : Capsule ℚ n) (o : AbstractShape n) :
    c.collides base o = match o with
      | .point p => c.modPoint p
      | .sphere s => c.modSphere s
      | o => base o := by
  cases o <;> rfl

/-- Claim C6: the transformation assembled by
`AxisAlignedBoxRenderer<n>::draw` (translation by the transformed box centre
composed with scaling by its transformed half extents) maps the canonical
box with corner coordinates `-1` and `+1` exactly onto the box spanning
`transformedMin` to `transformedMax`. -/
theorem aabb_draw_transformation_maps_box {n : ℕ} (tMin tMax : Vec n)
    (h : ∀ i, tMin i ≤ tMax i) :
    aabbDrawTransformation tMin tMax '' canonicalBox n = boxSpanning tMin tMax := by
  ext y
  simp only [Set.mem_image, canonicalBox, boxSpanning, Set.mem_setOf_eq]
  constructor
  · rintro ⟨x, hx, rfl⟩ i
    rcases hx i with ⟨h1, h2⟩
    have hi := h i
    simp only [aabbDrawTransformation]
    constructor <;> nlinarith
  · intro hy
    refine ⟨fun i => (y i - (tMin i + tMax i) / 2) / ((tMax i - tMin i) / 2),
      fun i => ?_, funext fun i => ?_⟩
    · dsimp only
      by_cases h0 : tMax i - tMin i = 0
      · have hnum : y i - (tMin i + tMax i) / 2 = 0 := by
          have hy1 := (hy i).1
          have hy2 := (hy i).2
          linarith
        rw [hnum, zero_div]
        norm_num
      · have hs : 0 < (tMax i - tMin i) / 2 := by
          rcases lt_or_eq_of_le (h i) with hlt | heq
          · linarith
          · exact absurd (by linarith) h0
        constructor
        · rw [le_div_iff₀ hs]
          linarith [(hy i).1]
        · rw [div_le_one hs]
          linarith [(hy i).2]
    · simp only [aabbDrawTransformation]
      by_cases h0 : tMax i - tMin i = 0
      · have hnum : y i - (tMin i + tMax i) / 2 = 0 := by
          have hy1 := (hy i).1
          have hy2 := (hy i).2
          linarith
        rw [hnum, zero_div, mul_zero, add_zero]
        linarith [(hy i).1, (hy i).2]
      · have hs : (tMax i - tMin i) / 2 ≠ 0 := fun hc => h0 (by linarith)
        field_simp
        ring

/-- Witness for claim C6 at the concrete box `[0,2] x [0,4]`. -/
theorem aabb_draw_transformation_maps_box_witness :
    aabbDrawTransformation ![0, 0] ![2, 4] '' canonicalBox 2
      = boxSpanning ![0, 0] ![2, 4] :=
  aabb_draw_transformation_maps_box ![0, 0] ![2, 4]
    (by intro i; fin_cases i <;> norm_num)

/-- Claim C7: for an object owning a valid handle, `release()` returns the
underlying handle and leaves the object in the moved-from state (`handle()`
null, empty flags), so the destructor will not destroy the native handle. -/
theorem release_returns_handle_and_disowns (o : Vk.VkObject)
    (h : o.handle ≠ 0) :
    (Vk.release o).1 = o.handle
    ∧ (Vk.release o).2.handle = 0
    ∧ (Vk.release o).2 = Vk.noCreate
    ∧ Vk.destructorDestroysHandle (Vk.release o).2 = false :=
  ⟨rfl, rfl, rfl, rfl⟩

/-- Witness for claim C7 on a wrapped handle `5` owned with
`DestroyOnDestruction`. -/
theorem release_returns_handle_and_disowns_witness :
    (Vk.release (Vk.wrap 5 ⟨true⟩)).1 = (Vk.wrap 5 ⟨true⟩).handle
    ∧ (Vk.release (Vk.wrap 5 ⟨true⟩)).2.handle = 0
    ∧ (Vk.release (Vk.wrap 5 ⟨true⟩)).2 = Vk.noCreate
    ∧ Vk.destructorDestroysHandle (Vk.release (Vk.wrap 5 ⟨true⟩)).2 = false :=
  release_returns_handle_and_disowns (Vk.wrap 5 ⟨true⟩) (by decide)

/-- Claim C8: for an instance with an associated (non-null) handle the
destructor destroys the handle iff the handle flags contain
`DestroyOnDestruction`; the creating constructor sets that flag (so the
handle is destroyed), while `wrap()` with default empty flags never has the
handle destroyed. -/
theorem destruction_destroys_iff_flag (h : ℕ) (f : Vk.HandleFlags)
    (hn : h ≠ 0) :
    (Vk.destructorDestroysHandle ⟨h, f⟩ = true ↔ f.destroyOnDestruction = true)
    ∧ (Vk.create h).flags.destroyOnDestruction = true
    ∧ Vk.destructorDestroysHandle (Vk.create h) = true
    ∧ ∀ h2 : ℕ, Vk.destructorDestroysHandle (Vk.wrap h2 ⟨false⟩) = false := by
  refine ⟨?_, rfl, ?_, ?_⟩
  · simp [Vk.destructorDestroysHandle, hn]
  · simp [Vk.destructorDestroysHandle, Vk.create, hn]
  · intro h2
    simp [Vk.destructorDestroysHandle, Vk.wrap]

/-- Witness for claim C8 at handle `7`. -/
theorem destruction_destroys_iff_flag_witness :
    (Vk.destructorDestroysHandle ⟨7, ⟨true⟩⟩ = true ↔
      Vk.HandleFlags.destroyOnDestruction ⟨true⟩ = true)
    ∧ (Vk.create 7).flags.destroyOnDestruction = true
    ∧ Vk.destructorDestroysHandle (Vk.create 7) = true
    ∧ ∀ h2 : ℕ, Vk.destructorDestroysHandle (Vk.wrap h2 ⟨false⟩) = false :=
  destruction_destroys_iff_flag 7 ⟨true⟩ (by decide)

/-- Claim C9: `ImageCreateInfoCubeMap` produces exactly the structure the
base `ImageCreateInfo` constructor produces for a 2D image with extent
`{size.x(), size.y(), 1}`, 6 array layers and the caller's flags with
`CubeCompatible` additionally set; `ImageCreateInfoCubeMapArray` likewise
with extent `{size.x(), size.y(), 1}` and `size.z()` array layers. -/
theorem imageCreateInfo_cubeMap_refines_base (usages format : ℕ)
    (size2 : Fin 2 → ℤ) (size3 : Fin 3 → ℤ) (levels samples : ℤ)
    (flags : Finset Vk.ImageFlag) :
    Vk.imageCreateInfoCubeMap usages format size2 levels samples flags
      = Vk.imageCreateInfo Vk.VkImageType.e2D usages format
          ![size2 0, size2 1, 1] 6 levels samples
          (flags ∪ {Vk.ImageFlag.cubeCompatible})
    ∧ Vk.imageCreateInfoCubeMapArray usages format size3 levels samples flags
      = Vk.imageCreateInfo Vk.VkImageType.e2D usages format
          ![size3 0, size3 1, 1] (size3 2) levels samples
          (flags ∪ {Vk.ImageFlag.cubeCompatible})
    ∧ Vk.ImageFlag.cubeCompatible ∈
        (Vk.imageCreateInfoCubeMap usages format size2 levels samples flags).flags
    ∧ Vk.ImageFlag.cubeCompatible ∈
        (Vk.imageCreateInfoCubeMapArray usages format size3 levels
          samples flags).flags := by
  refine ⟨rfl, rfl, ?_, ?_⟩ <;>
    simp [Vk.imageCreateInfoCubeMap, Vk.imageCreateInfoCubeMapArray,
      Vk.imageCreateInfo]

/-- Claim C10: collision boundaries are exclusive. If the squared distance
from the point's transformed position to the capsule's transformed segment
equals the square of the transformed radius (i.e. the distance equals the
radius) the point test is false, and if the squared distance from the
sphere's transformed position equals the square of the sum of the
transformed radii the sphere test is false: touching shapes do not collide. -/
theorem capsule_touching_boundary_excluded {n : ℕ} (c : Capsule ℚ n)
    (p : Point ℚ n) (s : Sphere ℚ n)
    (hp : lineSegmentPointSquared c.transformedA c.transformedB
        p.transformedPosition = c.transformedRadius ^ 2)
    (hs : lineSegmentPointSquared c.transformedA c.transformedB
        s.transformedPosition
      = (c.transformedRadius + s.transformedRadius) ^ 2) :
    c.modPoint p = false ∧ c.modSphere s = false := by
  constructor
  · simp [Capsule.modPoint, hp]
  · simp [Capsule.modSphere, hs]

/-- Witness for claim C10: the unit-radius capsule over `(0,0)-(1,0)`
touching the point `(0,1)` and the unit sphere centred at `(0,-2)`. -/
theorem capsule_touching_boundary_excluded_witness :
    Capsule.modPoint ⟨![0, 0], ![1, 0], 1, ![0, 0], ![1, 0], 1⟩
        ⟨![0, 1], ![0, 1]⟩ = false
    ∧ Capsule.modSphere ⟨![0, 0], ![1, 0], 1, ![0, 0], ![1, 0], 1⟩
        ⟨![0, -2], ![0, -2], 1, 1⟩ = false :=
  capsule_touching_boundary_excluded _ _ _
    (by norm_num [lineSegmentPointSquared, dot, normSq, Fin.sum_univ_two])
    (by norm_num [lineSegmentPointSquared, dot, normSq, Fin.sum_univ_two])

end Magnum
